import Mathlib

/-!
Shallow embedding of `lab3_6.py`, a minimal in-memory notebook application.

The Python module keeps a process-wide counter `last_id`, a `Note` class
(fields `memo`, `tags`, `creation_date`, `id`), a `Notebook` class holding an
ordered list of notes with `new_note`, `search`, `_find_note`, `modify_memo`
and `modify_tags`, and a `Menu` shell whose handlers we model as pure
functions from the notebook state and the user's input lines to the new state
and the sequence of rendered note records.

Modelling conventions:
* the mutable global `last_id` and the in-place mutation of notes become
  explicit state passing (functions return the updated counter / notebook);
* `datetime.date.today()` becomes an abstract day number passed in;
* the `tags` attribute is a Python string or a Python list of strings in the
  source, so it is modelled by the sum type `PyTags`;
* ids handed to `_find_note` are Python ints or strings, modelled by `PyId`;
  the source compares `str(note.id) == str(note_id)`, which we mirror with
  `toString`;
* Python's `sub in s` substring test on strings is `infixOf` on the character
  lists, and `x in l` on lists is `List.contains`;
* `print` output of a handler is returned as data: `show_notes` returns the
  list of `(id, tags, memo)` records it prints, `modify_note` returns the
  list of printed lines (the source prints nothing in that handler).
-/

/-- A Python value stored in a note's `tags` attribute: the source sometimes
stores a string (the constructor default `''`, the shell's `modify_note`) and
sometimes a list of string labels (the `modify_tags` doctest). -/
inductive PyTags where
  | str (s : String)
  | list (l : List String)
deriving DecidableEq, Repr

/-- A Python value handed to `_find_note` as `note_id`: an int (the doctests)
or a string (the shell reads ids with `input`). -/
inductive PyId where
  | int (n : Int)
  | str (s : String)
deriving DecidableEq, Repr

/-- Python `str(note_id)` for the two value shapes that occur. -/
def PyId.toStr : PyId → String
  | .int n => toString n
  | .str s => s

/-- Python's `sub in hay` substring test on strings, on character lists:
true iff `sub` occurs contiguously inside `hay`. -/
def infixOf (sub : List Char) : List Char → Bool
  | [] => sub.isPrefixOf []
  | c :: t => sub.isPrefixOf (c :: t) || infixOf sub t

/-- Python `sub in hay` for strings. -/
def strIn (sub hay : String) : Bool :=
  infixOf sub.toList hay.toList

/-- Python `filter in tags`: substring containment when `tags` is a string,
membership when it is a list. -/
def tagsContain (tags : PyTags) (filter : String) : Bool :=
  match tags with
  | .str s => strIn filter s
  | .list l => l.contains filter

/-- A note record, fields in the order `Note.__init__` assigns them.
`creation_date` is the abstract day number captured at construction. -/
structure Note where
  memo : String
  tags : PyTags
  creation_date : Nat
  id : Nat
deriving DecidableEq, Repr

/-- Initial value of the process-wide id counter (`last_id = 0`). -/
def last_id : Nat := 0

/-- Embeds `Note.__init__(memo, tags)`: captures memo, tags and today's date,
increments the shared counter and assigns the incremented value as the id.
Returns the constructed note together with the updated counter. -/
def Note.init (memo : String) (tags : PyTags) (today lastId : Nat) : Note × Nat :=
  let newLast := lastId + 1
  ({ memo := memo, tags := tags, creation_date := today, id := newLast }, newLast)

/-- Embeds `Note.match(filter)`:
`return filter in self.memo or filter in self.tags`. -/
def Note.«match» (self : Note) (filter : String) : Bool :=
  strIn filter self.memo || tagsContain self.tags filter

/-- A notebook: the ordered list `self.notes` (created empty in
`Notebook.__init__`). -/
structure Notebook where
  notes : List Note
deriving DecidableEq, Repr

/-- Embeds `Notebook.new_note(memo, tags)`: constructs a note and appends it;
the Python method returns `None`, so the only results are the updated
notebook and the updated counter. -/
def Notebook.new_note (nb : Notebook) (memo : String) (tags : PyTags)
    (today lastId : Nat) : Notebook × Nat :=
  let r := Note.init memo tags today lastId
  (⟨nb.notes ++ [r.1]⟩, r.2)

/-- Embeds `Notebook.search(filter)`:
`return [note for note in self.notes if note.match(filter)]`. -/
def Notebook.search (nb : Notebook) (filter : String) : List Note :=
  nb.notes.filter fun note => note.«match» filter

/-- Embeds `Notebook._find_note(note_id)`: scan `self.notes` in order and
return the first note with `str(note.id) == str(note_id)`, else `None`. -/
def Notebook._find_note (nb : Notebook) (note_id : PyId) : Option Note :=
  nb.notes.find? fun note => toString note.id == note_id.toStr

/-- In-place mutation of the first note whose textual id matches `sid`,
setting its memo: the list-level content of `modify_memo` (which looks the
note up with `_find_note` and assigns `note.memo = memo` on the object held
in the list). Returns the Python method's boolean result and the new list. -/
def modifyMemoList (sid v : String) : List Note → Bool × List Note
  | [] => (false, [])
  | n :: ns =>
      if toString n.id == sid then (true, { n with memo := v } :: ns)
      else
        let r := modifyMemoList sid v ns
        (r.1, n :: r.2)

/-- Same as `modifyMemoList` for the `tags` attribute (`modify_tags`). -/
def modifyTagsList (sid : String) (t : PyTags) : List Note → Bool × List Note
  | [] => (false, [])
  | n :: ns =>
      if toString n.id == sid then (true, { n with tags := t } :: ns)
      else
        let r := modifyTagsList sid t ns
        (r.1, n :: r.2)

/-- Embeds `Notebook.modify_memo(note_id, memo)`: find the note with the
given id and change its memo; return `True` on success, `False` otherwise. -/
def Notebook.modify_memo (nb : Notebook) (note_id : PyId) (v : String) :
    Bool × Notebook :=
  let r := modifyMemoList note_id.toStr v nb.notes
  (r.1, ⟨r.2⟩)

/-- Embeds `Notebook.modify_tags(note_id, tags)`: find the note with the
given id and change its tags; return `True` on success, `False` otherwise. -/
def Notebook.modify_tags (nb : Notebook) (note_id : PyId) (t : PyTags) :
    Bool × Notebook :=
  let r := modifyTagsList note_id.toStr t nb.notes
  (r.1, ⟨r.2⟩)

/-- One rendered note record, as printed by the shell:
`"{id}: {tags}\n{memo}"` carries the id, the tags and the memo. -/
abbrev Rendered := Nat × PyTags × String

/-- Embeds `Menu.show_notes(notes=None)`: the body runs
`if not notes: notes = self.notebook.notes`, so a `None` argument — and,
by Python truthiness, an empty list argument — falls back to the whole
notebook; then one record per note is printed. Returns the records. -/
def Menu.show_notes (nb : Notebook) (notes : Option (List Note)) :
    List Rendered :=
  let ns : List Note :=
    match notes with
    | none => nb.notes
    | some l => if l.isEmpty then nb.notes else l
  ns.map fun note => (note.id, note.tags, note.memo)

/-- Embeds `Menu.search_notes` on input line `filter`: computes
`self.notebook.search(filter)` and renders it with `show_notes`. -/
def Menu.search_notes (nb : Notebook) (filter : String) : List Rendered :=
  Menu.show_notes nb (some (nb.search filter))

/-- Embeds `Menu.add_note` on input line `memo`: creates the note with the
default empty-string tags and prints a confirmation line. -/
def Menu.add_note (nb : Notebook) (memo : String) (today lastId : Nat) :
    (Notebook × Nat) × List String :=
  (nb.new_note memo (PyTags.str "") today lastId, ["Your note has been added."])

/-- Embeds `Menu.modify_note` on the three input lines id, memo, tags:
`if memo: modify_memo(id, memo)` then `if tags: modify_tags(id, tags)`
(a Python string is truthy iff non-empty). The handler prints nothing, so
its output-line list is empty. -/
def Menu.modify_note (nb : Notebook) (idLine memoLine tagsLine : String) :
    Notebook × List String :=
  let nb1 := if memoLine = "" then nb
    else (nb.modify_memo (PyId.str idLine) memoLine).2
  let nb2 := if tagsLine = "" then nb1
    else (nb1.modify_tags (PyId.str idLine) (PyTags.str tagsLine)).2
  (nb2, [])

/-- The ids assigned by a sequence of note creations that starts with the
counter at `c`: every creation in the process, whichever notebook it goes to,
runs `Note.init` on the one shared counter, so the process-wide id stream is
this fold. -/
def createIds (today : Nat) : Nat → List (String × PyTags) → List Nat
  | _, [] => []
  | c, (m, t) :: rest =>
      let r := Note.init m t today c
      r.1.id :: createIds today r.2 rest

/-- A concrete notebook holding the single note created first in the process:
memo `"hello"`, default tags, day 0, id 1. -/
def nbHello : Notebook :=
  ((Notebook.mk []).new_note "hello" (PyTags.str "") 0 last_id).1

/-- A concrete two-note notebook: memos `"hello world"` and `"hello again"`,
created on day 0 starting from the initial counter. -/
def nbTwo : Notebook :=
  let s1 := (Notebook.mk []).new_note "hello world" (PyTags.str "") 0 last_id
  (s1.1.new_note "hello again" (PyTags.str "") 0 s1.2).1
theorem infixOf_iff (sub hay : List Char) : infixOf sub hay = true ↔ sub <:+: hay := by
  induction hay with
  | nil =>
      simp [infixOf, List.isPrefixOf_iff_prefix, List.prefix_nil, List.infix_nil]
  | cons c t ih =>
      simp [infixOf, List.isPrefixOf_iff_prefix, ih, List.infix_cons_iff]

theorem strIn_iff (sub hay : String) : strIn sub hay = true ↔ sub.toList <:+: hay.toList := by
  rw [strIn, infixOf_iff]

theorem tagsContain_iff (t : PyTags) (f : String) :
    tagsContain t f = true ↔
      ((∃ s, t = PyTags.str s ∧ f.toList <:+: s.toList) ∨
       (∃ l, t = PyTags.list l ∧ f ∈ l)) := by
  cases t with
  | str s => simp [tagsContain, strIn_iff]
  | list l => simp [tagsContain, List.contains, List.elem_iff]

theorem find?_first {α : Type} (p : α → Bool) (l : List α) (a : α)
    (h : l.find? p = some a) :
    ∃ l1 l2, l = l1 ++ a :: l2 ∧ (∀ x ∈ l1, p x = false) ∧ p a = true := by
  induction l with
  | nil => simp at h
  | cons x xs ih =>
      by_cases hp : p x = true
      · rw [List.find?_cons_of_pos _ hp] at h
        cases h
        exact ⟨[], xs, by simp, by simp, hp⟩
      · rw [List.find?_cons_of_neg _ hp] at h
        obtain ⟨l1, l2, heq, h1, h2⟩ := ih h
        refine ⟨x :: l1, l2, by rw [heq]; rfl, ?_, h2⟩
        intro y hy
        rcases List.mem_cons.mp hy with rfl | hy
        · simpa using hp
        · exact h1 y hy

theorem modifyMemoList_spec (sid v : String) (l : List Note) :
    ((modifyMemoList sid v l).1 = false ∧ (modifyMemoList sid v l).2 = l ∧
       ∀ n ∈ l, toString n.id ≠ sid) ∨
    ((modifyMemoList sid v l).1 = true ∧
       ∃ l1 n l2, l = l1 ++ n :: l2 ∧ (∀ m ∈ l1, toString m.id ≠ sid) ∧
         toString n.id = sid ∧
         (modifyMemoList sid v l).2 = l1 ++ { n with memo := v } :: l2) := by
  induction l with
  | nil => left; simp [modifyMemoList]
  | cons n ns ih =>
      by_cases h : toString n.id = sid
      · right
        refine ⟨by simp [modifyMemoList, h], [], n, ns, by simp, by simp, h,
          by simp [modifyMemoList, h]⟩
      · have hbeq : (toString n.id == sid) = false := by simp [h]
        rcases ih with ⟨h1, h2, h3⟩ | ⟨h1, l1, m, l2, heq, hl1, hm, hres⟩
        · left
          refine ⟨by simp [modifyMemoList, hbeq, h1], by simp [modifyMemoList, hbeq, h2], ?_⟩
          intro x hx
          rcases List.mem_cons.mp hx with rfl | hx
          · exact h
          · exact h3 x hx
        · right
          refine ⟨by simp [modifyMemoList, hbeq, h1], n :: l1, m, l2, by simp [heq], ?_, hm,
            by simp [modifyMemoList, hbeq, hres]⟩
          intro x hx
          rcases List.mem_cons.mp hx with rfl | hx
          · exact h
          · exact hl1 x hx

theorem modifyTagsList_spec (sid : String) (t : PyTags) (l : List Note) :
    ((modifyTagsList sid t l).1 = false ∧ (modifyTagsList sid t l).2 = l ∧
       ∀ n ∈ l, toString n.id ≠ sid) ∨
    ((modifyTagsList sid t l).1 = true ∧
       ∃ l1 n l2, l = l1 ++ n :: l2 ∧ (∀ m ∈ l1, toString m.id ≠ sid) ∧
         toString n.id = sid ∧
         (modifyTagsList sid t l).2 = l1 ++ { n with tags := t } :: l2) := by
  induction l with
  | nil => left; simp [modifyTagsList]
  | cons n ns ih =>
      by_cases h : toString n.id = sid
      · right
        refine ⟨by simp [modifyTagsList, h], [], n, ns, by simp, by simp, h,
          by simp [modifyTagsList, h]⟩
      · have hbeq : (toString n.id == sid) = false := by simp [h]
        rcases ih with ⟨h1, h2, h3⟩ | ⟨h1, l1, m, l2, heq, hl1, hm, hres⟩
        · left
          refine ⟨by simp [modifyTagsList, hbeq, h1], by simp [modifyTagsList, hbeq, h2], ?_⟩
          intro x hx
          rcases List.mem_cons.mp hx with rfl | hx
          · exact h
          · exact h3 x hx
        · right
          refine ⟨by simp [modifyTagsList, hbeq, h1], n :: l1, m, l2, by simp [heq], ?_, hm,
            by simp [modifyTagsList, hbeq, hres]⟩
          intro x hx
          rcases List.mem_cons.mp hx with rfl | hx
          · exact h
          · exact hl1 x hx

theorem modifyMemoList_fst_iff (sid v : String) (l : List Note) :
    (modifyMemoList sid v l).1 = true ↔ ∃ n ∈ l, toString n.id = sid := by
  rcases modifyMemoList_spec sid v l with ⟨h1, _, h3⟩ | ⟨h1, l1, n, l2, heq, _, hn, _⟩
  · rw [h1]
    constructor
    · intro hc
      exact absurd hc Bool.false_ne_true
    · rintro ⟨n, hmem, hid⟩
      exact absurd hid (h3 n hmem)
  · exact iff_of_true h1
      ⟨n, by rw [heq]; exact List.mem_append_right _ (List.mem_cons_self _ _), hn⟩

theorem modifyTagsList_fst_iff (sid : String) (t : PyTags) (l : List Note) :
    (modifyTagsList sid t l).1 = true ↔ ∃ n ∈ l, toString n.id = sid := by
  rcases modifyTagsList_spec sid t l with ⟨h1, _, h3⟩ | ⟨h1, l1, n, l2, heq, _, hn, _⟩
  · rw [h1]
    constructor
    · intro hc
      exact absurd hc Bool.false_ne_true
    · rintro ⟨n, hmem, hid⟩
      exact absurd hid (h3 n hmem)
  · exact iff_of_true h1
      ⟨n, by rw [heq]; exact List.mem_append_right _ (List.mem_cons_self _ _), hn⟩

theorem modifyMemoList_map_tags (sid v : String) (l : List Note) :
    ((modifyMemoList sid v l).2).map Note.tags = l.map Note.tags := by
  induction l with
  | nil => simp [modifyMemoList]
  | cons n ns ih =>
      by_cases h : (toString n.id == sid) = true
      · simp [modifyMemoList, h]
      · simp [modifyMemoList, h, ih]

theorem modifyTagsList_map_memo (sid : String) (t : PyTags) (l : List Note) :
    ((modifyTagsList sid t l).2).map Note.memo = l.map Note.memo := by
  induction l with
  | nil => simp [modifyTagsList]
  | cons n ns ih =>
      by_cases h : (toString n.id == sid) = true
      · simp [modifyTagsList, h]
      · simp [modifyTagsList, h, ih]

theorem modify_memo_of_no_match (nb : Notebook) (i : PyId) (v : String)
    (h : ∀ n ∈ nb.notes, toString n.id ≠ i.toStr) :
    nb.modify_memo i v = (false, nb) := by
  rcases modifyMemoList_spec i.toStr v nb.notes with ⟨h1, h2, _⟩ | ⟨_, l1, n, l2, heq, _, hn, _⟩
  · rw [Notebook.modify_memo]
    simp only [h1, h2]
  · exact absurd hn (h n (by rw [heq]; exact List.mem_append_right _ (List.mem_cons_self _ _)))

theorem modify_tags_of_no_match (nb : Notebook) (i : PyId) (t : PyTags)
    (h : ∀ n ∈ nb.notes, toString n.id ≠ i.toStr) :
    nb.modify_tags i t = (false, nb) := by
  rcases modifyTagsList_spec i.toStr t nb.notes with ⟨h1, h2, _⟩ | ⟨_, l1, n, l2, heq, _, hn, _⟩
  · rw [Notebook.modify_tags]
    simp only [h1, h2]
  · exact absurd hn (h n (by rw [heq]; exact List.mem_append_right _ (List.mem_cons_self _ _)))

theorem modify_tags_preserves_memos (nb : Notebook) (i : PyId) (t : PyTags) :
    ((nb.modify_tags i t).2).notes.map Note.memo = nb.notes.map Note.memo :=
  modifyTagsList_map_memo i.toStr t nb.notes

theorem modify_memo_preserves_tags (nb : Notebook) (i : PyId) (v : String) :
    ((nb.modify_memo i v).2).notes.map Note.tags = nb.notes.map Note.tags :=
  modifyMemoList_map_tags i.toStr v nb.notes

/-- Claim C1 (refuted by the code): searching `nbHello` with filter `"zzz"`
matches no note — `search` returns `[]` — yet the shell's search handler
renders the entire notebook rather than nothing, because `show_notes`
treats the empty result list like the `None` default (`if not notes:`)
and falls back to `notebook.notes`. -/
theorem claim_C1_empty_search_renders_all :
    nbHello.search "zzz" = [] ∧
    Menu.search_notes nbHello "zzz" = [(1, PyTags.str "", "hello")] ∧
    Menu.search_notes nbHello "zzz" ≠ [] := by
  refine ⟨by decide, by decide, by decide⟩

/-- Claim C2: `search f` returns exactly the notes of the notebook for which
`match f` holds — it is a sublist of `notes` (so insertion order is
preserved), a note is in the result iff it is in the notebook and matches,
with multiplicities preserved — and searching an empty notebook gives `[]`. -/
theorem claim_C2_search_exact (f : String) (nb : Notebook) :
    (nb.search f).Sublist nb.notes ∧
    (∀ n : Note, n ∈ nb.search f ↔ n ∈ nb.notes ∧ n.«match» f = true) ∧
    (∀ n : Note, (nb.search f).count n =
      if n.«match» f = true then nb.notes.count n else 0) ∧
    (Notebook.mk []).search f = [] := by
  refine ⟨List.filter_sublist _, fun n => List.mem_filter, ?_, rfl⟩
  intro n
  by_cases hm : n.«match» f = true
  · rw [if_pos hm]
    exact List.count_filter hm
  · rw [if_neg hm, List.count_eq_zero]
    intro hmem
    exact hm (List.mem_filter.mp hmem).2

/-- Concrete instance of `claim_C2_search_exact` at the two-note notebook
and the filter `"world"`. -/
theorem claim_C2_witness :
    (nbTwo.search "world").Sublist nbTwo.notes ∧
    (∀ n : Note, n ∈ nbTwo.search "world" ↔ n ∈ nbTwo.notes ∧ n.«match» "world" = true) ∧
    (∀ n : Note, (nbTwo.search "world").count n =
      if n.«match» "world" = true then nbTwo.notes.count n else 0) ∧
    (Notebook.mk []).search "world" = [] :=
  claim_C2_search_exact "world" nbTwo

/-- Claim C3: `modify_memo id v` returns `true` iff some note's textual id
equals the textual id argument, in which case the result notebook holds a
note with that id whose memo is `v`; it returns `false` iff no note matches,
in which case the notebook is left unchanged. `modify_tags` satisfies the
symmetric contract for the tags attribute. -/
theorem claim_C3_modify_contract (nb : Notebook) (i : PyId) (v : String) (t : PyTags) :
    ((nb.modify_memo i v).1 = true ↔ ∃ n ∈ nb.notes, toString n.id = i.toStr) ∧
    ((nb.modify_memo i v).1 = true →
      ∃ n ∈ (nb.modify_memo i v).2.notes, toString n.id = i.toStr ∧ n.memo = v) ∧
    ((nb.modify_memo i v).1 = false → (nb.modify_memo i v).2 = nb) ∧
    ((nb.modify_tags i t).1 = true ↔ ∃ n ∈ nb.notes, toString n.id = i.toStr) ∧
    ((nb.modify_tags i t).1 = true →
      ∃ n ∈ (nb.modify_tags i t).2.notes, toString n.id = i.toStr ∧ n.tags = t) ∧
    ((nb.modify_tags i t).1 = false → (nb.modify_tags i t).2 = nb) := by
  refine ⟨modifyMemoList_fst_iff _ _ _, ?_, ?_, modifyTagsList_fst_iff _ _ _, ?_, ?_⟩
  · intro h
    rcases modifyMemoList_spec i.toStr v nb.notes with ⟨h1, _, _⟩ | ⟨_, l1, n, l2, _, _, hn, hres⟩
    · have h' : (modifyMemoList i.toStr v nb.notes).1 = true := h
      rw [h1] at h'
      exact absurd h' Bool.false_ne_true
    · refine ⟨{ n with memo := v }, ?_, by simpa using hn, rfl⟩
      show { n with memo := v } ∈ (modifyMemoList i.toStr v nb.notes).2
      rw [hres]
      exact List.mem_append_right _ (List.mem_cons_self _ _)
  · intro h
    rcases modifyMemoList_spec i.toStr v nb.notes with ⟨_, h2, _⟩ | ⟨h1, _, _, _, _, _, _, _⟩
    · show (⟨(modifyMemoList i.toStr v nb.notes).2⟩ : Notebook) = nb
      rw [h2]
    · have h' : (modifyMemoList i.toStr v nb.notes).1 = false := h
      rw [h1] at h'
      exact absurd h'.symm Bool.false_ne_true
  · intro h
    rcases modifyTagsList_spec i.toStr t nb.notes with ⟨h1, _, _⟩ | ⟨_, l1, n, l2, _, _, hn, hres⟩
    · have h' : (modifyTagsList i.toStr t nb.notes).1 = true := h
      rw [h1] at h'
      exact absurd h' Bool.false_ne_true
    · refine ⟨{ n with tags := t }, ?_, by simpa using hn, rfl⟩
      show { n with tags := t } ∈ (modifyTagsList i.toStr t nb.notes).2
      rw [hres]
      exact List.mem_append_right _ (List.mem_cons_self _ _)
  · intro h
    rcases modifyTagsList_spec i.toStr t nb.notes with ⟨_, h2, _⟩ | ⟨h1, _, _, _, _, _, _, _⟩
    · show (⟨(modifyTagsList i.toStr t nb.notes).2⟩ : Notebook) = nb
      rw [h2]
    · have h' : (modifyTagsList i.toStr t nb.notes).1 = false := h
      rw [h1] at h'
      exact absurd h'.symm Bool.false_ne_true

/-- Concrete instance of `claim_C3_modify_contract`: modifying the memo under
the unassigned id `"7"` fails and leaves `nbHello` unchanged. -/
theorem claim_C3_witness :
    (nbHello.modify_memo (PyId.str "7") "hi").2 = nbHello :=
  (claim_C3_modify_contract nbHello (PyId.str "7") "hi" (PyTags.str "")).2.2.1 (by decide)

/-- Claim C4: a sequence of note creations that starts with the shared
counter at `c` assigns exactly the ids `c+1, c+2, ...` — the consecutive
integer range — so the ids are pairwise distinct, strictly increasing in
creation order, gap-free, and never reused. -/
theorem claim_C4_ids (today c : Nat) (inputs : List (String × PyTags)) :
    createIds today c inputs = List.range' (c + 1) inputs.length ∧
    (createIds today c inputs).Nodup ∧
    (createIds today c inputs).Pairwise (· < ·) := by
  have main : ∀ (l : List (String × PyTags)) (k : Nat),
      createIds today k l = List.range' (k + 1) l.length := by
    intro l
    induction l with
    | nil => intro k; rfl
    | cons p rest ih =>
        intro k
        cases p with
        | mk m t => simp [createIds, Note.init, ih, List.range'_succ]
  refine ⟨main inputs c, ?_, ?_⟩
  · rw [main inputs c]
    exact List.nodup_range' _ _ 1 Nat.one_pos
  · rw [main inputs c]
    exact List.pairwise_lt_range' _ _ 1 Nat.one_pos

/-- Concrete instance of `claim_C4_ids`: three creations from the initial
counter assign the ids 1, 2, 3. -/
theorem claim_C4_witness :
    createIds 0 last_id [("a", PyTags.str ""), ("b", PyTags.str ""), ("c", PyTags.str "")] =
      List.range' 1 3 ∧
    (createIds 0 last_id [("a", PyTags.str ""), ("b", PyTags.str ""), ("c", PyTags.str "")]).Nodup ∧
    (createIds 0 last_id
      [("a", PyTags.str ""), ("b", PyTags.str ""), ("c", PyTags.str "")]).Pairwise (· < ·) :=
  claim_C4_ids 0 last_id [("a", PyTags.str ""), ("b", PyTags.str ""), ("c", PyTags.str "")]

/-- Claim C5: `_find_note` returns `none` iff no note's textual id equals the
textual form of the argument; a returned note has the matching textual id and
is the first such note in insertion order; and a numeric id and its string
form give the same result. -/
theorem claim_C5_find_note (nb : Notebook) (i : PyId) :
    (nb._find_note i = none ↔ ∀ n ∈ nb.notes, toString n.id ≠ i.toStr) ∧
    (∀ n : Note, nb._find_note i = some n →
      toString n.id = i.toStr ∧
      ∃ l1 l2, nb.notes = l1 ++ n :: l2 ∧ ∀ m ∈ l1, toString m.id ≠ i.toStr) ∧
    (∀ k : Int, nb._find_note (PyId.int k) = nb._find_note (PyId.str (toString k))) := by
  refine ⟨?_, ?_, fun k => rfl⟩
  · rw [Notebook._find_note, List.find?_eq_none]
    constructor
    · intro h n hn
      simpa using h n hn
    · intro h n hn
      simpa using h n hn
  · intro n h
    obtain ⟨l1, l2, heq, h1, h2⟩ := find?_first _ _ _ h
    exact ⟨by simpa using h2, l1, l2, heq, fun m hm => by simpa using h1 m hm⟩

/-- Concrete instance of `claim_C5_find_note`: looking up the first note by
the int `1` and by the string `"1"` gives the same result on `nbHello`. -/
theorem claim_C5_witness :
    nbHello._find_note (PyId.int 1) = nbHello._find_note (PyId.str (toString (1 : Int))) :=
  (claim_C5_find_note nbHello (PyId.int 1)).2.2 1

/-- Claim C6: `match f` holds iff `f` occurs as a contiguous substring of the
memo, or — depending on the runtime type of the tags attribute — as a
contiguous substring of the tags string or as a member of the tags list;
the comparison is on exact character lists, hence case-sensitive; and a note
freshly created with memo `m` matches every contiguous substring of `m`
(in particular `m` itself). -/
theorem claim_C6_match_spec (n : Note) (f : String) (memo s : String)
    (tags : PyTags) (today c : Nat) :
    (n.«match» f = true ↔
      (f.toList <:+: n.memo.toList ∨
        (∃ ts, n.tags = PyTags.str ts ∧ f.toList <:+: ts.toList) ∨
        (∃ l, n.tags = PyTags.list l ∧ f ∈ l))) ∧
    (s.toList <:+: memo.toList →
      (Note.init memo tags today c).1.«match» s = true) := by
  constructor
  · rw [Note.«match», Bool.or_eq_true, strIn_iff, tagsContain_iff]
  · intro hs
    rw [Note.«match», Bool.or_eq_true]
    left
    rw [strIn_iff]
    exact hs

/-- Concrete instance of `claim_C6_match_spec`: a note created with memo
`"hello world"` matches the contiguous substring `"lo wo"`. -/
theorem claim_C6_witness :
    (Note.init "hello world" (PyTags.str "") 0 0).1.«match» "lo wo" = true :=
  (claim_C6_match_spec (Note.init "hello world" (PyTags.str "") 0 0).1 "x"
    "hello world" "lo wo" (PyTags.str "") 0 0).2 ((infixOf_iff _ _).mp (by decide))

/-- Claim C7: for the shell's modify handler on the three input lines id,
memo, tags: the handler prints nothing (so a failed lookup produces no
user-visible error); an empty memo line leaves every note's memo unchanged
and an empty tags line leaves every note's tags unchanged; a non-empty line
applies exactly the corresponding notebook operation; and when no note has
the given textual id the notebook is returned unchanged. -/
theorem claim_C7_modify_handler (nb : Notebook) (idL mL tL : String) :
    (Menu.modify_note nb idL mL tL).2 = [] ∧
    (mL = "" →
      (Menu.modify_note nb idL mL tL).1.notes.map Note.memo = nb.notes.map Note.memo) ∧
    (tL = "" →
      (Menu.modify_note nb idL mL tL).1.notes.map Note.tags = nb.notes.map Note.tags) ∧
    (mL ≠ "" → tL = "" →
      (Menu.modify_note nb idL mL tL).1 = (nb.modify_memo (PyId.str idL) mL).2) ∧
    (mL = "" → tL ≠ "" →
      (Menu.modify_note nb idL mL tL).1 = (nb.modify_tags (PyId.str idL) (PyTags.str tL)).2) ∧
    (mL ≠ "" → tL ≠ "" →
      (Menu.modify_note nb idL mL tL).1 =
        (((nb.modify_memo (PyId.str idL) mL).2).modify_tags (PyId.str idL)
          (PyTags.str tL)).2) ∧
    ((∀ n ∈ nb.notes, toString n.id ≠ idL) →
      (Menu.modify_note nb idL mL tL).1 = nb) := by
  refine ⟨rfl, ?_, ?_, ?_, ?_, ?_, ?_⟩
  · intro hm
    by_cases ht : tL = ""
    · simp [Menu.modify_note, hm, ht]
    · have hstep : (Menu.modify_note nb idL mL tL).1 =
          (nb.modify_tags (PyId.str idL) (PyTags.str tL)).2 := by
        simp [Menu.modify_note, hm, ht]
      rw [hstep, modify_tags_preserves_memos]
  · intro ht
    by_cases hm : mL = ""
    · simp [Menu.modify_note, hm, ht]
    · have hstep : (Menu.modify_note nb idL mL tL).1 =
          (nb.modify_memo (PyId.str idL) mL).2 := by
        simp [Menu.modify_note, hm, ht]
      rw [hstep, modify_memo_preserves_tags]
  · intro hm ht
    simp [Menu.modify_note, hm, ht]
  · intro hm ht
    simp [Menu.modify_note, hm, ht]
  · intro hm ht
    simp [Menu.modify_note, hm, ht]
  · intro h
    have hmm : ∀ v, (nb.modify_memo (PyId.str idL) v).2 = nb := fun v => by
      rw [modify_memo_of_no_match nb (PyId.str idL) v h]
    have hmt : ∀ t', (nb.modify_tags (PyId.str idL) t').2 = nb := fun t' => by
      rw [modify_tags_of_no_match nb (PyId.str idL) t' h]
    by_cases hm : mL = "" <;> by_cases ht : tL = "" <;>
      simp [Menu.modify_note, hm, ht, hmm, hmt]

/-- Concrete instance of `claim_C7_modify_handler`: modifying under the
unassigned id `"7"` with non-empty memo and tags lines leaves `nbHello`
unchanged and prints nothing. -/
theorem claim_C7_witness :
    (Menu.modify_note nbHello "7" "hi" "tag").1 = nbHello :=
  (claim_C7_modify_handler nbHello "7" "hi" "tag").2.2.2.2.2.2 (by decide)

/-- Claim C8: the empty string is a contiguous substring of every memo, so
every note of a notebook whose notes carry string-typed memos and tags
matches the empty filter, and searching with the empty string returns the
whole note list in insertion order. -/
theorem claim_C8_empty_filter (nb : Notebook)
    (_h : ∀ n ∈ nb.notes, ∃ s, n.tags = PyTags.str s) :
    (∀ n ∈ nb.notes, n.«match» "" = true) ∧ nb.search "" = nb.notes := by
  have hm : ∀ n : Note, n.«match» "" = true := by
    intro n
    rw [Note.«match», Bool.or_eq_true]
    left
    rw [strIn_iff]
    exact List.nil_infix
  refine ⟨fun n _ => hm n, ?_⟩
  rw [Notebook.search, List.filter_eq_self]
  intro n _
  exact hm n

/-- Concrete instance of `claim_C8_empty_filter` on the two-note notebook,
whose tags are the default empty strings. -/
theorem claim_C8_witness :
    (∀ n ∈ nbTwo.notes, n.«match» "" = true) ∧ nbTwo.search "" = nbTwo.notes :=
  claim_C8_empty_filter nbTwo (fun n hn => by
    have hn' : n = { memo := "hello world", tags := PyTags.str "", creation_date := 0, id := 1 } ∨
        n = { memo := "hello again", tags := PyTags.str "", creation_date := 0, id := 2 } := by
      simpa [nbTwo, Notebook.new_note, Note.init, last_id] using hn
    rcases hn' with rfl | rfl
    · exact ⟨"", rfl⟩
    · exact ⟨"", rfl⟩)

/-- Claim C9: `new_note` appends exactly one freshly constructed note at the
end of the list — the length grows by one and the prefix of previously
stored notes is unchanged, every field included; the Python method returns
`None`, so the new state is its only effect. -/
theorem claim_C9_new_note (nb : Notebook) (m : String) (t : PyTags) (d c : Nat) :
    (nb.new_note m t d c).1.notes = nb.notes ++ [(Note.init m t d c).1] ∧
    (nb.new_note m t d c).1.notes.length = nb.notes.length + 1 ∧
    (nb.new_note m t d c).1.notes.take nb.notes.length = nb.notes := by
  refine ⟨rfl, ?_, ?_⟩
  · simp [Notebook.new_note]
  · simp [Notebook.new_note, List.take_left]

/-- Concrete instance of `claim_C9_new_note`: appending a note to the
one-note notebook. -/
theorem claim_C9_witness :
    (nbHello.new_note "more" (PyTags.str "") 0 1).1.notes =
      nbHello.notes ++ [(Note.init "more" (PyTags.str "") 0 1).1] ∧
    (nbHello.new_note "more" (PyTags.str "") 0 1).1.notes.length =
      nbHello.notes.length + 1 ∧
    (nbHello.new_note "more" (PyTags.str "") 0 1).1.notes.take nbHello.notes.length =
      nbHello.notes :=
  claim_C9_new_note nbHello "more" (PyTags.str "") 0 1

/-- Claim C10: when `modify_memo` succeeds, the note list decomposes around
the first note whose textual id matches: the notes before and after it are
unchanged and the matched note itself keeps its id, tags and creation date,
only its memo becoming the new value; symmetrically for `modify_tags`. -/
theorem claim_C10_modify_frame (nb : Notebook) (i : PyId) (v : String) (t : PyTags) :
    ((nb.modify_memo i v).1 = true →
      ∃ l1 n l2, nb.notes = l1 ++ n :: l2 ∧ toString n.id = i.toStr ∧
        (∀ m ∈ l1, toString m.id ≠ i.toStr) ∧
        (nb.modify_memo i v).2.notes = l1 ++ { n with memo := v } :: l2) ∧
    ((nb.modify_tags i t).1 = true →
      ∃ l1 n l2, nb.notes = l1 ++ n :: l2 ∧ toString n.id = i.toStr ∧
        (∀ m ∈ l1, toString m.id ≠ i.toStr) ∧
        (nb.modify_tags i t).2.notes = l1 ++ { n with tags := t } :: l2) := by
  constructor
  · intro h
    rcases modifyMemoList_spec i.toStr v nb.notes with ⟨h1, _, _⟩ | ⟨_, l1, n, l2, heq, hl1, hn, hres⟩
    · have h' : (modifyMemoList i.toStr v nb.notes).1 = true := h
      rw [h1] at h'
      exact absurd h' Bool.false_ne_true
    · exact ⟨l1, n, l2, heq, hn, hl1, hres⟩
  · intro h
    rcases modifyTagsList_spec i.toStr t nb.notes with ⟨h1, _, _⟩ | ⟨_, l1, n, l2, heq, hl1, hn, hres⟩
    · have h' : (modifyTagsList i.toStr t nb.notes).1 = true := h
      rw [h1] at h'
      exact absurd h' Bool.false_ne_true
    · exact ⟨l1, n, l2, heq, hn, hl1, hres⟩

/-- Concrete instance of `claim_C10_modify_frame`: a successful memo update
on `nbTwo` under the int id `1` changes only that note's memo. -/
theorem claim_C10_witness :
    ∃ l1 n l2, nbTwo.notes = l1 ++ n :: l2 ∧
      toString n.id = (PyId.int 1).toStr ∧
      (∀ m ∈ l1, toString m.id ≠ (PyId.int 1).toStr) ∧
      (nbTwo.modify_memo (PyId.int 1) "hi world").2.notes =
        l1 ++ { n with memo := "hi world" } :: l2 :=
  (claim_C10_modify_frame nbTwo (PyId.int 1) "hi world" (PyTags.str "")).1 (by decide)
